import Mathlib

/-!
Shallow embedding of the validation + format-conversion pipeline of
`src/server/server.js` (an Express server that ingests XML personnel
records, validates them against fixed schema rules, persists valid
batches to MongoDB, and renders invalid batches as an annotated Excel
sheet for correction and re-upload).

Modelling conventions:
* Parsed XML / Excel leaf values are JavaScript primitives; the parser
  (`fast-xml-parser`) yields strings, numbers or booleans, modelled by
  `JsPrim` (numbers restricted to integers — fractional values play no
  role in any property considered here, and their decimal rendering
  never matches the date shape either).
* A missing object key (absent XML tag / absent spreadsheet cell) is
  `Option.none`; JavaScript truthiness of a field is `truthy`.
* Integer-to-string conversion mirrors JavaScript `String(n)` via an
  explicit fuel-based decimal printer (`natToString`, `intToString`).
* HTTP transport, the file system moves between holding directories,
  and the XML text (de)serialisation are I/O plumbing; handlers are
  modelled from the parse result (`Except String XmlData`) onward, and
  the Excel workbook is modelled as its list of rows (`List JsPrim`
  cells) in sheet order.
-/

/-- JavaScript primitive leaf values as produced by the XML/Excel parsers. -/
inductive JsPrim where
  | str (s : String)
  | num (n : Int)
  | bool (b : Bool)
deriving DecidableEq

/-- A record candidate: the JS object extracted for one `<soldier>` element
(or one spreadsheet row). A `none` field models an absent key. -/
structure Candidate where
  id : Option JsPrim
  name : Option JsPrim
  rank : Option JsPrim
  unit : Option JsPrim
  service_date : Option JsPrim
  status : Option JsPrim
deriving DecidableEq

/-- JavaScript truthiness of a primitive: `""`, `0` and `false` are falsy. -/
def primTruthy : JsPrim → Bool
  | JsPrim.str s => decide (s ≠ "")
  | JsPrim.num n => decide (n ≠ 0)
  | JsPrim.bool b => b

/-- JavaScript truthiness of a field access (`undefined` is falsy). -/
def truthy : Option JsPrim → Bool
  | none => false
  | some p => primTruthy p

/-- `typeof v === 'string'`. -/
def isStringV : Option JsPrim → Bool
  | some (JsPrim.str _) => true
  | _ => false

/-- Decimal digit character, mirroring the characters JavaScript uses when
printing a number (only ever applied to `d < 10`). -/
def digitChar (d : Nat) : Char := Char.ofNat (48 + d)

/-- Fuel-based decimal printer accumulating least-significant digits into
`acc`; mirrors JavaScript `String(n)` for natural numbers. -/
def natDigitsCore : Nat → Nat → List Char → List Char
  | 0, _, acc => acc
  | fuel+1, n, acc =>
    if n < 10 then digitChar n :: acc
    else natDigitsCore fuel (n / 10) (digitChar (n % 10) :: acc)

/-- JavaScript `String(n)` for a natural number. -/
def natToString (n : Nat) : String := String.mk (natDigitsCore (n+1) n [])

/-- JavaScript `String(n)` for an integer. -/
def intToString : Int → String
  | Int.ofNat m => natToString m
  | Int.negSucc m => "-" ++ natToString (m+1)

/-- JavaScript string coercion of a primitive (`String(v)` / `v.toString()`). -/
def primToString : JsPrim → String
  | JsPrim.str s => s
  | JsPrim.num n => intToString n
  | JsPrim.bool b => if b then "true" else "false"

/-- JavaScript string coercion of a possibly-absent value, as used by
template literals and `RegExp.test` (`undefined` prints as `"undefined"`). -/
def coerceStr : Option JsPrim → String
  | none => "undefined"
  | some p => primToString p

/-- Character at position `i`, with `' '` past the end. -/
def charAt (l : List Char) (i : Nat) : Char :=
  match l.get? i with
  | some c => c
  | none => ' '

/-- The test of `/^\d{4}-\d{2}-\d{2}$/` (server.js line 367): exactly ten
characters, digits everywhere except `'-'` at positions 4 and 7. -/
def dateRegexTest (s : String) : Bool :=
  (s.data.length == 10) &&
  (charAt s.data 0).isDigit && (charAt s.data 1).isDigit &&
  (charAt s.data 2).isDigit && (charAt s.data 3).isDigit &&
  (charAt s.data 4 == '-') &&
  (charAt s.data 5).isDigit && (charAt s.data 6).isDigit &&
  (charAt s.data 7 == '-') &&
  (charAt s.data 8).isDigit && (charAt s.data 9).isDigit

/-- Numeric value of a digit character. -/
def digitVal (c : Char) : Nat := c.toNat - 48

/-- Year component of a `YYYY-MM-DD` string. -/
def dateYear (s : String) : Nat :=
  ((digitVal (charAt s.data 0) * 10 + digitVal (charAt s.data 1)) * 10
    + digitVal (charAt s.data 2)) * 10 + digitVal (charAt s.data 3)

/-- Month component of a `YYYY-MM-DD` string. -/
def dateMonth (s : String) : Nat :=
  digitVal (charAt s.data 5) * 10 + digitVal (charAt s.data 6)

/-- Day component of a `YYYY-MM-DD` string. -/
def dateDay (s : String) : Nat :=
  digitVal (charAt s.data 8) * 10 + digitVal (charAt s.data 9)

/-- Gregorian leap-year rule, as used by the ECMAScript date model. -/
def isLeapYear (y : Nat) : Bool :=
  (y % 4 == 0 && y % 100 != 0) || y % 400 == 0

/-- Days in a month of the proleptic Gregorian calendar. -/
def daysInMonth (y m : Nat) : Nat :=
  if m == 2 then (if isLeapYear y then 29 else 28)
  else if m == 4 || m == 6 || m == 9 || m == 11 then 30
  else 31

/-- Models `!isNaN(new Date(s).getTime())` (server.js lines 372–373) for a
string `s` already matching the `YYYY-MM-DD` shape: the ECMAScript ISO
date-only parse succeeds iff the month is 1–12 and the day fits the month. -/
def jsDateValid (s : String) : Bool :=
  decide (1 ≤ dateMonth s) && decide (dateMonth s ≤ 12) &&
  decide (1 ≤ dateDay s) &&
  decide (dateDay s ≤ daysInMonth (dateYear s) (dateMonth s))

/-- `"XSD VIOLATION: Soldier {i}"`, the ordinal tag prefixing every
per-candidate violation message. -/
def soldierTag (i : Nat) : String :=
  "XSD VIOLATION: Soldier " ++ natToString i

/-- `.length > cap` in JavaScript: a string compares its length, any other
value yields `undefined > cap`, which is false. -/
def strLenGt (v : Option JsPrim) (cap : Nat) : Bool :=
  match v with
  | some (JsPrim.str s) => decide (cap < s.length)
  | _ => false

/-- Membership of the status value in `['Active', 'Retired', 'Deceased']`
(`Array.prototype.includes` uses SameValueZero, so only those exact
strings qualify). -/
def statusEnumOk (v : Option JsPrim) : Bool :=
  decide (v = some (JsPrim.str "Active") ∨ v = some (JsPrim.str "Retired")
    ∨ v = some (JsPrim.str "Deceased"))

/-- ID presence/type checks (server.js lines 339–343). -/
def idErrors (c : Candidate) (i : Nat) : List String :=
  if !truthy c.id then [soldierTag i ++ " - Missing required field: ID"]
  else if !isStringV c.id then [soldierTag i ++ " - ID must be a string"]
  else []

/-- Name presence/type checks (lines 345–349). -/
def nameErrors (c : Candidate) (i : Nat) : List String :=
  if !truthy c.name then [soldierTag i ++ " - Missing required field: Name"]
  else if !isStringV c.name then [soldierTag i ++ " - Name must be a string"]
  else []

/-- Rank presence/type checks (lines 351–355). -/
def rankErrors (c : Candidate) (i : Nat) : List String :=
  if !truthy c.rank then [soldierTag i ++ " - Missing required field: Rank"]
  else if !isStringV c.rank then [soldierTag i ++ " - Rank must be a string"]
  else []

/-- Unit presence/type checks (lines 357–361). -/
def unitErrors (c : Candidate) (i : Nat) : List String :=
  if !truthy c.unit then [soldierTag i ++ " - Missing required field: Unit"]
  else if !isStringV c.unit then [soldierTag i ++ " - Unit must be a string"]
  else []

/-- Service-date presence / format / calendar checks (lines 363–377):
the regex runs first, and only on a regex match is the real-calendar
check (`new Date`) consulted. -/
def serviceDateErrors (c : Candidate) (i : Nat) : List String :=
  if !truthy c.service_date then
    [soldierTag i ++ " - Missing required field: Service Date"]
  else if !dateRegexTest (coerceStr c.service_date) then
    [soldierTag i ++ " - Service Date must be in YYYY-MM-DD format"]
  else if !jsDateValid (coerceStr c.service_date) then
    [soldierTag i ++ " - Invalid date: " ++ coerceStr c.service_date]
  else []

/-- Status presence/enum checks (lines 379–383). -/
def statusErrors (c : Candidate) (i : Nat) : List String :=
  if !truthy c.status then
    [soldierTag i ++ " - Missing required field: Status"]
  else if !statusEnumOk c.status then
    [soldierTag i ++ " - Status must be one of: Active, Retired, Deceased (got: "
      ++ coerceStr c.status ++ ")"]
  else []

/-- ID length ceiling (lines 386–388). -/
def idLenErrors (c : Candidate) (i : Nat) : List String :=
  if truthy c.id && strLenGt c.id 50 then
    [soldierTag i ++ " - ID length exceeds maximum (50 characters)"]
  else []

/-- Name length ceiling (lines 390–392). -/
def nameLenErrors (c : Candidate) (i : Nat) : List String :=
  if truthy c.name && strLenGt c.name 100 then
    [soldierTag i ++ " - Name length exceeds maximum (100 characters)"]
  else []

/-- Rank length ceiling (lines 394–396). -/
def rankLenErrors (c : Candidate) (i : Nat) : List String :=
  if truthy c.rank && strLenGt c.rank 50 then
    [soldierTag i ++ " - Rank length exceeds maximum (50 characters)"]
  else []

/-- Unit length ceiling (lines 398–400). -/
def unitLenErrors (c : Candidate) (i : Nat) : List String :=
  if truthy c.unit && strLenGt c.unit 100 then
    [soldierTag i ++ " - Unit length exceeds maximum (100 characters)"]
  else []

/-- All checks for one candidate, in source order; nothing short-circuits
across fields, so every failing check contributes its message. -/
def validateSoldier (c : Candidate) (i : Nat) : List String :=
  idErrors c i ++ nameErrors c i ++ rankErrors c i ++ unitErrors c i ++
  serviceDateErrors c i ++ statusErrors c i ++
  idLenErrors c i ++ nameLenErrors c i ++ rankLenErrors c i ++ unitLenErrors c i

/-- `soldiers.forEach((soldier, index) => ...)` accumulation: candidate at
zero-based position `k` is validated with ordinal `k + 1`. -/
def validateSoldiers : Nat → List Candidate → List String
  | _, [] => []
  | i, c :: cs => validateSoldier c (i+1) ++ validateSoldiers (i+1) cs

/-- The `soldier` entry under the parsed root: absent, a single element
(sloppy singleton serialisation), or an array. -/
inductive SoldierNode where
  | absent
  | single (c : Candidate)
  | array (cs : List Candidate)
deriving DecidableEq

/-- The parsed `<army_records>` element. -/
structure ArmyRecords where
  soldier : SoldierNode
deriving DecidableEq

/-- The whole parsed XML document object. -/
structure XmlData where
  army_records : Option ArmyRecords
deriving DecidableEq

/-- The candidate extraction of server.js lines 319–321:
`Array.isArray(x.army_records?.soldier) ? it : it ? [it] : []`. -/
def extractSoldiers (x : XmlData) : List Candidate :=
  match x.army_records with
  | none => []
  | some ar =>
    match ar.soldier with
    | SoldierNode.absent => []
    | SoldierNode.single c => [c]
    | SoldierNode.array cs => cs

/-- A validation verdict (server.js lines 403–407). -/
structure Verdict where
  isValid : Bool
  errors : List String
  soldiers : List Candidate
deriving DecidableEq

/-- `validateAgainstXSD` (server.js lines 317–408): batch-level root and
non-emptiness checks are fatal; otherwise every candidate is validated and
`isValid` holds iff the error list is empty. -/
def validateAgainstXSD (x : XmlData) : Verdict :=
  let soldiers := extractSoldiers x
  match x.army_records with
  | none =>
    ⟨false, ["XSD VIOLATION: Root element must be \"army_records\""], []⟩
  | some _ =>
    if soldiers.isEmpty then
      ⟨false, ["XSD VIOLATION: At least one soldier record is required"], []⟩
    else
      let errs := validateSoldiers 0 soldiers
      ⟨errs.isEmpty, errs, soldiers⟩

/-- `validateXML` (lines 411–436) from the parse result onward: a parse
failure yields a single parse-error violation and no candidates. -/
def validateXML (input : Except String XmlData) : Verdict :=
  match input with
  | Except.ok d => validateAgainstXSD d
  | Except.error msg => ⟨false, ["XML PARSE ERROR: " ++ msg], []⟩

/-- Boolean list-prefix test (helper for the substring test below). -/
def listPrefixB : List Char → List Char → Bool
  | [], _ => true
  | _ :: _, [] => false
  | a :: as, b :: bs => a == b && listPrefixB as bs

/-- Boolean substring test on character lists. -/
def containsSub (pat : List Char) : List Char → Bool
  | [] => listPrefixB pat []
  | b :: bs => listPrefixB pat (b :: bs) || containsSub pat bs

/-- JavaScript `s.includes(pat)`. -/
def strIncludes (s pat : String) : Bool := containsSub pat.data s.data

/-- JavaScript `Array.prototype.join(sep)`. -/
def joinSep (sep : String) : List String → String
  | [] => ""
  | [a] => a
  | a :: b :: rest => a ++ sep ++ joinSep sep (b :: rest)

/-- The per-row error filter of `createInvalidExcel` (server.js lines
457–461): keep a violation for zero-based row `index` when its text
contains the substring `"Soldier {index+1}"`, or when it is one of the two
batch-level violations and the row is the first. -/
def soldierRowErrors (errs : List String) (index : Nat) : List String :=
  errs.filter (fun e =>
    strIncludes e ("Soldier " ++ natToString (index + 1)) ||
    (strIncludes e "Root element" && index == 0) ||
    (strIncludes e "At least one soldier" && index == 0))

/-- `record.f || ''`: the cell receives the field value when truthy,
otherwise the empty string (lines 467–474). -/
def cellOf (v : Option JsPrim) : JsPrim :=
  match v with
  | some p => if primTruthy p then p else JsPrim.str ""
  | none => JsPrim.str ""

/-- The remarks text for one data row (lines 463–465): the joined matching
violations, or the fixed fallback when none match. -/
def rowRemarks (errs : List String) (index : Nat) : String :=
  if soldierRowErrors errs index = [] then "General validation error"
  else joinSep "; " (soldierRowErrors errs index)

/-- One data row of the annotated error sheet: the six field cells plus the
seventh "Schema Violations" cell. -/
def excelDataRow (errs : List String) (index : Nat) (c : Candidate) : List JsPrim :=
  [cellOf c.id, cellOf c.name, cellOf c.rank, cellOf c.unit,
   cellOf c.service_date, cellOf c.status, JsPrim.str (rowRemarks errs index)]

/-- The data rows, one per invalid record in order (lines 455–476). -/
def excelDataRows (errs : List String) : Nat → List Candidate → List (List JsPrim)
  | _, [] => []
  | i, c :: cs => excelDataRow errs i c :: excelDataRows errs (i+1) cs

/-- The trailing summary block (lines 479–485): an empty row, a header row,
then one row per violation verbatim — added only when violations exist. -/
def summaryRows (errs : List String) : List (List JsPrim) :=
  if errs = [] then []
  else
    [] :: [JsPrim.str "", JsPrim.str "", JsPrim.str "", JsPrim.str "",
           JsPrim.str "", JsPrim.str "", JsPrim.str "ALL SCHEMA VIOLATIONS:"]
      :: errs.map (fun e =>
           [JsPrim.str "", JsPrim.str "", JsPrim.str "", JsPrim.str "",
            JsPrim.str "", JsPrim.str "", JsPrim.str e])

/-- `createInvalidExcel` (lines 439–505) as the list of worksheet rows
added after the header row: the data rows followed by the summary block. -/
def createInvalidExcel (invalidRecords : List Candidate) (errs : List String) :
    List (List JsPrim) :=
  excelDataRows errs 0 invalidRecords ++ summaryRows errs

/-- The fixed header row of both sheet layouts (`worksheet.columns`). -/
def headerRow : List JsPrim :=
  [JsPrim.str "ID", JsPrim.str "Name", JsPrim.str "Rank", JsPrim.str "Unit",
   JsPrim.str "Service Date", JsPrim.str "Status", JsPrim.str "Schema Violations"]

/-- `row.getCell(i).value?.toString() || ''` (lines 518–523): the 1-based
cell coerced to a string, with absent cells and empty strings normalising
to `""`. -/
def getCellStr (row : List JsPrim) (i : Nat) : String :=
  match row.get? (i - 1) with
  | some p => primToString p
  | none => ""

/-- The record built positionally from one spreadsheet row (lines 517–524). -/
def rowToRecord (row : List JsPrim) : Candidate :=
  ⟨some (JsPrim.str (getCellStr row 1)), some (JsPrim.str (getCellStr row 2)),
   some (JsPrim.str (getCellStr row 3)), some (JsPrim.str (getCellStr row 4)),
   some (JsPrim.str (getCellStr row 5)), some (JsPrim.str (getCellStr row 6))⟩

/-- The row-scanning half of `parseExcelToXML` (lines 508–537), producing
the `records` batch that line 533 wraps into the `xmlData` object: every
row after the header maps positionally to the six fields, and a row is
kept only when `record.id && record.name` — both the identifier and the
name cells are non-empty.  The function's final step (line 539), the
`js2xmlparser.parse` call over the already-wrapped `xmlData`, is modelled
by `excelXmlData`, `js2xmlSer` and `parseExcelToXMLFull` further below. -/
def parseExcelToXML (sheet : List (List JsPrim)) : List Candidate :=
  (sheet.drop 1).filterMap (fun row =>
    let r := rowToRecord row
    if truthy r.id && truthy r.name then some r else none)

/-- A persisted soldier document: the six fields plus the two mongoose
timestamp fields (instants abstracted as naturals). -/
structure StoredSoldier where
  id : Option JsPrim
  name : Option JsPrim
  rank : Option JsPrim
  unit : Option JsPrim
  service_date : Option JsPrim
  status : Option JsPrim
  created_at : Nat
  updated_at : Nat
deriving DecidableEq

/-- `new Soldier(soldier)` saved at instant `now`: fields copied from the
candidate, both timestamps defaulted to `now`. -/
def freshSoldier (now : Nat) (c : Candidate) : StoredSoldier :=
  ⟨c.id, c.name, c.rank, c.unit, c.service_date, c.status, now, now⟩

/-- `Object.assign(existingSoldier, soldier)` followed by
`existingSoldier.updated_at = new Date()`: each field key present on the
candidate overwrites the stored one, `created_at` is untouched and
`updated_at` is refreshed. -/
def assignCandidate (st : StoredSoldier) (c : Candidate) (now : Nat) : StoredSoldier :=
  { id := match c.id with | some v => some v | none => st.id
    name := match c.name with | some v => some v | none => st.name
    rank := match c.rank with | some v => some v | none => st.rank
    unit := match c.unit with | some v => some v | none => st.unit
    service_date := match c.service_date with | some v => some v | none => st.service_date
    status := match c.status with | some v => some v | none => st.status
    created_at := st.created_at
    updated_at := now }

/-- The upsert for one candidate (lines 550–561): `findOne({ id })` finds
the first stored document with the candidate's identifier and is updated in
place; with no match a fresh document is inserted at the end. Returns the
new store and the document pushed onto `savedRecords`. -/
def upsertList (now : Nat) (c : Candidate) :
    List StoredSoldier → List StoredSoldier × StoredSoldier
  | [] => ([freshSoldier now c], freshSoldier now c)
  | s :: rest =>
    if s.id = c.id then
      (assignCandidate s c now :: rest, assignCandidate s c now)
    else
      let r := upsertList now c rest
      (s :: r.1, r.2)

/-- Result of a `saveToMongoDB` run: the final store, the `savedRecords`
accumulator, and the per-record `console.error` log. -/
structure SaveResult where
  store : List StoredSoldier
  saved : List StoredSoldier
  errlog : List String
deriving DecidableEq

/-- The per-record error log line of line 564 (`Error saving soldier {id}`). -/
def saveErrMsg (c : Candidate) : String :=
  "Error saving soldier " ++ coerceStr c.id

/-- `saveToMongoDB` (lines 544–569): candidates are upserted one at a time;
`oracle k = true` models the store throwing on the `k`-th candidate's save,
which is caught, logged per candidate, and never aborts the loop. -/
def saveToMongoDB (oracle : Nat → Bool) (now : Nat) :
    Nat → List StoredSoldier → List Candidate → SaveResult
  | _, store, [] => ⟨store, [], []⟩
  | k, store, c :: cs =>
    if oracle k then
      let r := saveToMongoDB oracle now (k+1) store cs
      ⟨r.store, r.saved, saveErrMsg c :: r.errlog⟩
    else
      let u := upsertList now c store
      let r := saveToMongoDB oracle now (k+1) u.1 cs
      ⟨r.store, u.2 :: r.saved, r.errlog⟩

/-- A processing-log document (lines 48–55); `processed_at` defaults are
irrelevant to the claims and elided. -/
structure LogEntry where
  filename : String
  status : String
  valid_count : Nat
  invalid_count : Nat
  errors : List String
deriving DecidableEq

/-- The server's shared mutable state: the soldier collection and the
insert-only processing-log collection. -/
structure ServerState where
  store : List StoredSoldier
  logs : List LogEntry
deriving DecidableEq

/-- The JSON verdict summary returned by the two processing endpoints;
counts are omitted (`none`) where the source response omits them. -/
structure UploadResponse where
  success : Bool
  status : String
  valid_count : Option Nat
  invalid_count : Option Nat
  errors : List String
  excel_rows : Option (List (List JsPrim))
deriving DecidableEq

/-- `POST /api/upload-xml` (lines 577–649) from the parse result onward:
a valid batch is saved and logged as `corrected`; an invalid batch renders
the annotated sheet, is logged as `invalid` with zero accepted and the full
error list, and leaves the store untouched. -/
def uploadXml (oracle : Nat → Bool) (now : Nat) (filename : String)
    (input : Except String XmlData) (st : ServerState) :
    ServerState × UploadResponse :=
  let validation := validateXML input
  if validation.isValid then
    let r := saveToMongoDB oracle now 0 st.store validation.soldiers
    (⟨r.store, st.logs ++ [⟨filename, "corrected", r.saved.length, 0, []⟩]⟩,
     ⟨true, "corrected", some r.saved.length, some 0, [], none⟩)
  else
    let rows := createInvalidExcel validation.soldiers validation.errors
    (⟨st.store,
      st.logs ++ [⟨filename, "invalid", 0, validation.soldiers.length,
                   validation.errors⟩]⟩,
     ⟨false, "invalid", some 0, some validation.soldiers.length,
      validation.errors, some rows⟩)

/-- `POST /api/reupload-corrected` (lines 668–731) from the parse result of
the Excel-derived XML onward: the accepted branch matches `uploadXml`; the
rejected branch renders the annotated sheet and leaves the store untouched,
and — unlike `uploadXml` — writes no processing-log entry. -/
def reuploadCorrected (oracle : Nat → Bool) (now : Nat) (filename : String)
    (input : Except String XmlData) (st : ServerState) :
    ServerState × UploadResponse :=
  let validation := validateXML input
  if validation.isValid then
    let r := saveToMongoDB oracle now 0 st.store validation.soldiers
    (⟨r.store, st.logs ++ [⟨filename, "corrected", r.saved.length, 0, []⟩]⟩,
     ⟨true, "corrected", some r.saved.length, some 0, [], none⟩)
  else
    let rows := createInvalidExcel validation.soldiers validation.errors
    (⟨st.store, st.logs⟩,
     ⟨false, "invalid", none, none, validation.errors, some rows⟩)

theorem digitChar_isDigit (d : Nat) (h : d < 10) : (digitChar d).isDigit = true := by
  interval_cases d <;> decide

theorem natDigitsCore_digits :
    ∀ (fuel n : Nat) (acc : List Char), (∀ c ∈ acc, c.isDigit = true) →
      ∀ c ∈ natDigitsCore fuel n acc, c.isDigit = true := by
  intro fuel
  induction fuel with
  | zero => intro n acc hacc; simpa [natDigitsCore] using hacc
  | succ f ih =>
    intro n acc hacc c hc
    simp only [natDigitsCore] at hc
    by_cases h : n < 10
    · rw [if_pos h] at hc
      rcases List.mem_cons.1 hc with h1 | h2
      · exact h1 ▸ digitChar_isDigit n h
      · exact hacc c h2
    · rw [if_neg h] at hc
      refine ih (n / 10) (digitChar (n % 10) :: acc) ?_ c hc
      intro c' hc'
      rcases List.mem_cons.1 hc' with h1 | h2
      · exact h1 ▸ digitChar_isDigit (n % 10) (Nat.mod_lt n (by omega))
      · exact hacc c' h2

theorem natToString_digits (n : Nat) :
    ∀ c ∈ (natToString n).data, c.isDigit = true := by
  have : (natToString n).data = natDigitsCore (n+1) n [] := rfl
  rw [this]
  exact natDigitsCore_digits (n+1) n [] (by simp)

theorem data_append (s t : String) : (s ++ t).data = s.data ++ t.data := by
  cases s; cases t; rfl

theorem charAt_digits_ne_dash (l : List Char) (pos : Nat)
    (hl : ∀ c ∈ l, c.isDigit = true) : charAt l pos ≠ '-' := by
  cases h : l.get? pos with
  | none =>
    have : charAt l pos = ' ' := by simp only [charAt, h]
    rw [this]; decide
  | some c =>
    have hc : charAt l pos = c := by simp only [charAt, h]
    rw [hc]
    intro he
    exact absurd (he ▸ hl c (List.get?_mem h)) (by decide)

theorem dateRegexTest_false_of_char4 (s : String)
    (h : charAt s.data 4 ≠ '-') : dateRegexTest s = false := by
  have hb : (charAt s.data 4 == '-') = false := by
    simp [h]
  simp [dateRegexTest, hb]

theorem dateRegexTest_intToString (n : Int) :
    dateRegexTest (intToString n) = false := by
  cases n with
  | ofNat m =>
    exact dateRegexTest_false_of_char4 _
      (charAt_digits_ne_dash _ 4 (natToString_digits m))
  | negSucc m =>
    apply dateRegexTest_false_of_char4
    have hdata : (intToString (Int.negSucc m)).data = '-' :: (natToString (m+1)).data := by
      show (("-" : String) ++ natToString (m+1)).data = _
      rw [data_append]
      rfl
    rw [hdata]
    show charAt (natToString (m+1)).data 3 ≠ '-'
    exact charAt_digits_ne_dash _ 3 (natToString_digits (m+1))

theorem serviceDate_str_of_pass (v : Option JsPrim) (ht : truthy v = true)
    (hr : dateRegexTest (coerceStr v) = true) :
    ∃ s, v = some (JsPrim.str s) ∧ s ≠ "" := by
  cases v with
  | none => simp [truthy] at ht
  | some p =>
    cases p with
    | str s =>
      refine ⟨s, rfl, ?_⟩
      simpa [truthy, primTruthy] using ht
    | num n =>
      rw [show coerceStr (some (JsPrim.num n)) = intToString n from rfl,
        dateRegexTest_intToString] at hr
      exact absurd hr (by decide)
    | bool b =>
      cases b with
      | false =>
        rw [show coerceStr (some (JsPrim.bool false)) = "false" from rfl] at hr
        exact absurd hr (by decide)
      | true =>
        rw [show coerceStr (some (JsPrim.bool true)) = "true" from rfl] at hr
        exact absurd hr (by decide)

theorem status_str_of_enumOk (v : Option JsPrim) (h : statusEnumOk v = true) :
    ∃ s, v = some (JsPrim.str s) ∧ s ≠ "" := by
  have h' := of_decide_eq_true h
  rcases h' with h1 | h1 | h1
  · exact ⟨"Active", h1, by decide⟩
  · exact ⟨"Retired", h1, by decide⟩
  · exact ⟨"Deceased", h1, by decide⟩

theorem idErrors_nil (c : Candidate) (i : Nat) :
    idErrors c i = [] ↔ (truthy c.id = true ∧ isStringV c.id = true) := by
  cases h1 : truthy c.id <;> cases h2 : isStringV c.id <;> simp [idErrors, h1, h2]

theorem nameErrors_nil (c : Candidate) (i : Nat) :
    nameErrors c i = [] ↔ (truthy c.name = true ∧ isStringV c.name = true) := by
  cases h1 : truthy c.name <;> cases h2 : isStringV c.name <;> simp [nameErrors, h1, h2]

theorem rankErrors_nil (c : Candidate) (i : Nat) :
    rankErrors c i = [] ↔ (truthy c.rank = true ∧ isStringV c.rank = true) := by
  cases h1 : truthy c.rank <;> cases h2 : isStringV c.rank <;> simp [rankErrors, h1, h2]

theorem unitErrors_nil (c : Candidate) (i : Nat) :
    unitErrors c i = [] ↔ (truthy c.unit = true ∧ isStringV c.unit = true) := by
  cases h1 : truthy c.unit <;> cases h2 : isStringV c.unit <;> simp [unitErrors, h1, h2]

theorem serviceDateErrors_nil (c : Candidate) (i : Nat) :
    serviceDateErrors c i = [] ↔
      (truthy c.service_date = true ∧
       dateRegexTest (coerceStr c.service_date) = true ∧
       jsDateValid (coerceStr c.service_date) = true) := by
  cases h1 : truthy c.service_date <;>
    cases h2 : dateRegexTest (coerceStr c.service_date) <;>
      cases h3 : jsDateValid (coerceStr c.service_date) <;>
        simp [serviceDateErrors, h1, h2, h3]

theorem statusErrors_nil (c : Candidate) (i : Nat) :
    statusErrors c i = [] ↔
      (truthy c.status = true ∧ statusEnumOk c.status = true) := by
  cases h1 : truthy c.status <;> cases h2 : statusEnumOk c.status <;>
    simp [statusErrors, h1, h2]

theorem idLenErrors_nil (c : Candidate) (i : Nat) :
    idLenErrors c i = [] ↔ (truthy c.id && strLenGt c.id 50) = false := by
  cases h : truthy c.id && strLenGt c.id 50 <;> simp [idLenErrors, h]

theorem nameLenErrors_nil (c : Candidate) (i : Nat) :
    nameLenErrors c i = [] ↔ (truthy c.name && strLenGt c.name 100) = false := by
  cases h : truthy c.name && strLenGt c.name 100 <;> simp [nameLenErrors, h]

theorem rankLenErrors_nil (c : Candidate) (i : Nat) :
    rankLenErrors c i = [] ↔ (truthy c.rank && strLenGt c.rank 50) = false := by
  cases h : truthy c.rank && strLenGt c.rank 50 <;> simp [rankLenErrors, h]

theorem unitLenErrors_nil (c : Candidate) (i : Nat) :
    unitLenErrors c i = [] ↔ (truthy c.unit && strLenGt c.unit 100) = false := by
  cases h : truthy c.unit && strLenGt c.unit 100 <;> simp [unitLenErrors, h]

theorem validateSoldier_nil (c : Candidate) (i : Nat) :
    validateSoldier c i = [] ↔
      (idErrors c i = [] ∧ nameErrors c i = [] ∧ rankErrors c i = [] ∧
       unitErrors c i = [] ∧ serviceDateErrors c i = [] ∧ statusErrors c i = [] ∧
       idLenErrors c i = [] ∧ nameLenErrors c i = [] ∧ rankLenErrors c i = [] ∧
       unitLenErrors c i = []) := by
  simp [validateSoldier, List.append_eq_nil, and_assoc]

/-- A candidate passing every schema rule (used as a concrete base input). -/
def okCand : Candidate :=
  ⟨some (JsPrim.str "S1"), some (JsPrim.str "Alice"), some (JsPrim.str "Private"),
   some (JsPrim.str "Alpha"), some (JsPrim.str "2021-01-01"), some (JsPrim.str "Active")⟩

/-- `okCand` with its rank tag removed (one missing field). -/
def badCand : Candidate := { okCand with rank := none }

/-- A parsed batch whose only candidate is `badCand`. -/
def xmlBad : XmlData := ⟨some ⟨SoldierNode.array [badCand]⟩⟩

/-- C2 counterexample: the claim says `2021-13-01` fails the format check,
but the regex `^\d{4}-\d{2}-\d{2}$` matches it (`13` is two digits); the
validator instead reports it through the real-calendar-date branch as an
`Invalid date` violation. -/
theorem serviceDate_2021_13_01_passes_format_cex :
    dateRegexTest "2021-13-01" = true ∧
    serviceDateErrors { okCand with service_date := some (JsPrim.str "2021-13-01") } 1
      = ["XSD VIOLATION: Soldier 1 - Invalid date: 2021-13-01"] := by
  constructor <;> decide

/-- C2 (amended): the service-date check first tests the exact regex
`^\d{4}-\d{2}-\d{2}$` and only on a regex match runs the real-calendar-date
check, producing two distinguishable violations; `2021-13-01` passes the
format check and fails the calendar check, as does `2021-02-30`, and the
two resulting messages are distinct (each echoes its value). -/
theorem serviceDate_format_then_calendar (c : Candidate) (i : Nat) (s : String)
    (hf : c.service_date = some (JsPrim.str s)) (hne : s ≠ "") :
    (dateRegexTest s = false →
      serviceDateErrors c i =
        [soldierTag i ++ " - Service Date must be in YYYY-MM-DD format"]) ∧
    (dateRegexTest s = true → jsDateValid s = false →
      serviceDateErrors c i = [soldierTag i ++ " - Invalid date: " ++ s]) ∧
    (dateRegexTest s = true → jsDateValid s = true → serviceDateErrors c i = []) ∧
    dateRegexTest "2021-13-01" = true ∧ jsDateValid "2021-13-01" = false ∧
    dateRegexTest "2021-02-30" = true ∧ jsDateValid "2021-02-30" = false ∧
    (soldierTag i ++ " - Invalid date: 2021-13-01") ≠
      (soldierTag i ++ " - Invalid date: 2021-02-30") := by
  have hcs : coerceStr c.service_date = s := by rw [hf]; rfl
  have ht : truthy c.service_date = true := by
    rw [hf]; simpa [truthy, primTruthy] using hne
  refine ⟨?_, ?_, ?_, by decide, by decide, by decide, by decide, ?_⟩
  · intro h1; simp [serviceDateErrors, ht, hcs, h1]
  · intro h1 h2; simp [serviceDateErrors, ht, hcs, h1, h2]
  · intro h1 h2; simp [serviceDateErrors, ht, hcs, h1, h2]
  · intro h
    have hd := congrArg String.data h
    rw [data_append, data_append] at hd
    have := List.append_cancel_left hd
    exact absurd this (by decide)

/-- Witness for `serviceDate_format_then_calendar` at a concrete record. -/
theorem serviceDate_format_then_calendar_witness :
    serviceDateErrors { okCand with service_date := some (JsPrim.str "2021-02-30") } 1
      = [soldierTag 1 ++ " - Invalid date: " ++ "2021-02-30"] :=
  (serviceDate_format_then_calendar
    { okCand with service_date := some (JsPrim.str "2021-02-30") } 1 "2021-02-30"
    rfl (by decide)).2.1 (by decide) (by decide)

/-- The six record fields. -/
inductive FieldName where
  | id
  | name
  | rank
  | unit
  | service_date
  | status
deriving DecidableEq

/-- Field projection. -/
def getField : FieldName → Candidate → Option JsPrim
  | FieldName.id, c => c.id
  | FieldName.name, c => c.name
  | FieldName.rank, c => c.rank
  | FieldName.unit, c => c.unit
  | FieldName.service_date, c => c.service_date
  | FieldName.status, c => c.status

/-- The presence-violation message the validator emits for each field. -/
def missingMsg : FieldName → Nat → String
  | FieldName.id, i => soldierTag i ++ " - Missing required field: ID"
  | FieldName.name, i => soldierTag i ++ " - Missing required field: Name"
  | FieldName.rank, i => soldierTag i ++ " - Missing required field: Rank"
  | FieldName.unit, i => soldierTag i ++ " - Missing required field: Unit"
  | FieldName.service_date, i => soldierTag i ++ " - Missing required field: Service Date"
  | FieldName.status, i => soldierTag i ++ " - Missing required field: Status"

/-- All checks concerning one field pass on this candidate. -/
def fieldValid : FieldName → Candidate → Bool
  | FieldName.id, c => truthy c.id && isStringV c.id && !strLenGt c.id 50
  | FieldName.name, c => truthy c.name && isStringV c.name && !strLenGt c.name 100
  | FieldName.rank, c => truthy c.rank && isStringV c.rank && !strLenGt c.rank 50
  | FieldName.unit, c => truthy c.unit && isStringV c.unit && !strLenGt c.unit 100
  | FieldName.service_date, c =>
    truthy c.service_date && dateRegexTest (coerceStr c.service_date) &&
      jsDateValid (coerceStr c.service_date)
  | FieldName.status, c => truthy c.status && statusEnumOk c.status

theorem fieldValid_id_blocks (c : Candidate) (i : Nat)
    (h : fieldValid FieldName.id c = true) :
    idErrors c i = [] ∧ idLenErrors c i = [] := by
  simp only [fieldValid, Bool.and_eq_true, Bool.not_eq_true'] at h
  exact ⟨(idErrors_nil c i).2 ⟨h.1.1, h.1.2⟩,
    (idLenErrors_nil c i).2 (by simp [h.1.1, h.2])⟩

theorem fieldValid_name_blocks (c : Candidate) (i : Nat)
    (h : fieldValid FieldName.name c = true) :
    nameErrors c i = [] ∧ nameLenErrors c i = [] := by
  simp only [fieldValid, Bool.and_eq_true, Bool.not_eq_true'] at h
  exact ⟨(nameErrors_nil c i).2 ⟨h.1.1, h.1.2⟩,
    (nameLenErrors_nil c i).2 (by simp [h.1.1, h.2])⟩

theorem fieldValid_rank_blocks (c : Candidate) (i : Nat)
    (h : fieldValid FieldName.rank c = true) :
    rankErrors c i = [] ∧ rankLenErrors c i = [] := by
  simp only [fieldValid, Bool.and_eq_true, Bool.not_eq_true'] at h
  exact ⟨(rankErrors_nil c i).2 ⟨h.1.1, h.1.2⟩,
    (rankLenErrors_nil c i).2 (by simp [h.1.1, h.2])⟩

theorem fieldValid_unit_blocks (c : Candidate) (i : Nat)
    (h : fieldValid FieldName.unit c = true) :
    unitErrors c i = [] ∧ unitLenErrors c i = [] := by
  simp only [fieldValid, Bool.and_eq_true, Bool.not_eq_true'] at h
  exact ⟨(unitErrors_nil c i).2 ⟨h.1.1, h.1.2⟩,
    (unitLenErrors_nil c i).2 (by simp [h.1.1, h.2])⟩

theorem fieldValid_sd_block (c : Candidate) (i : Nat)
    (h : fieldValid FieldName.service_date c = true) :
    serviceDateErrors c i = [] := by
  simp only [fieldValid, Bool.and_eq_true] at h
  exact (serviceDateErrors_nil c i).2 ⟨h.1.1, h.1.2, h.2⟩

theorem fieldValid_status_block (c : Candidate) (i : Nat)
    (h : fieldValid FieldName.status c = true) :
    statusErrors c i = [] := by
  simp only [fieldValid, Bool.and_eq_true] at h
  exact (statusErrors_nil c i).2 ⟨h.1, h.2⟩

/-- C8: in a batch with the root container present and at least one
candidate, the validator reports the full concatenation of every
candidate's checks (no short-circuiting across candidates or fields, each
candidate validated under its 1-based ordinal), and a record missing
exactly one of the six fields — all other fields fully valid — yields
exactly one presence violation, for that field, tagged with its ordinal. -/
theorem validator_no_short_circuit (x : XmlData) (hroot : x.army_records ≠ none)
    (hne : extractSoldiers x ≠ []) :
    (validateAgainstXSD x).errors = validateSoldiers 0 (extractSoldiers x) ∧
    (validateAgainstXSD x).soldiers = extractSoldiers x ∧
    (∀ (cs' : List Candidate) (i : Nat) (c : Candidate),
      validateSoldiers i (c :: cs') = validateSoldier c (i+1) ++ validateSoldiers (i+1) cs') ∧
    (∀ (c : Candidate) (i : Nat) (f : FieldName), truthy (getField f c) = false →
      (∀ g, g ≠ f → fieldValid g c = true) →
      validateSoldier c i = [missingMsg f i]) := by
  refine ⟨?_, ?_, fun cs' i c => rfl, ?_⟩
  · cases hx : x.army_records with
    | none => exact absurd hx hroot
    | some ar =>
      cases hcs : extractSoldiers x with
      | nil => exact absurd hcs hne
      | cons a as =>
        simp only [validateAgainstXSD, hx, hcs, List.isEmpty_cons, if_neg]
        simp
  · cases hx : x.army_records with
    | none => exact absurd hx hroot
    | some ar =>
      cases hcs : extractSoldiers x with
      | nil => exact absurd hcs hne
      | cons a as =>
        simp only [validateAgainstXSD, hx, hcs, List.isEmpty_cons, if_neg]
        simp
  · intro c i f hmiss hvalid
    cases f with
    | id =>
      obtain ⟨hn1, hn2⟩ := fieldValid_name_blocks c i (hvalid _ (by decide))
      obtain ⟨hr1, hr2⟩ := fieldValid_rank_blocks c i (hvalid _ (by decide))
      obtain ⟨hu1, hu2⟩ := fieldValid_unit_blocks c i (hvalid _ (by decide))
      have hsd := fieldValid_sd_block c i (hvalid _ (by decide))
      have hst := fieldValid_status_block c i (hvalid _ (by decide))
      have hm : truthy c.id = false := hmiss
      simp [validateSoldier, idErrors, idLenErrors, hm, hn1, hn2, hr1, hr2,
        hu1, hu2, hsd, hst, missingMsg]
    | name =>
      obtain ⟨hn1, hn2⟩ := fieldValid_id_blocks c i (hvalid _ (by decide))
      obtain ⟨hr1, hr2⟩ := fieldValid_rank_blocks c i (hvalid _ (by decide))
      obtain ⟨hu1, hu2⟩ := fieldValid_unit_blocks c i (hvalid _ (by decide))
      have hsd := fieldValid_sd_block c i (hvalid _ (by decide))
      have hst := fieldValid_status_block c i (hvalid _ (by decide))
      have hm : truthy c.name = false := hmiss
      simp [validateSoldier, nameErrors, nameLenErrors, hm, hn1, hn2, hr1, hr2,
        hu1, hu2, hsd, hst, missingMsg]
    | rank =>
      obtain ⟨hn1, hn2⟩ := fieldValid_id_blocks c i (hvalid _ (by decide))
      obtain ⟨hr1, hr2⟩ := fieldValid_name_blocks c i (hvalid _ (by decide))
      obtain ⟨hu1, hu2⟩ := fieldValid_unit_blocks c i (hvalid _ (by decide))
      have hsd := fieldValid_sd_block c i (hvalid _ (by decide))
      have hst := fieldValid_status_block c i (hvalid _ (by decide))
      have hm : truthy c.rank = false := hmiss
      simp [validateSoldier, rankErrors, rankLenErrors, hm, hn1, hn2, hr1, hr2,
        hu1, hu2, hsd, hst, missingMsg]
    | unit =>
      obtain ⟨hn1, hn2⟩ := fieldValid_id_blocks c i (hvalid _ (by decide))
      obtain ⟨hr1, hr2⟩ := fieldValid_name_blocks c i (hvalid _ (by decide))
      obtain ⟨hu1, hu2⟩ := fieldValid_rank_blocks c i (hvalid _ (by decide))
      have hsd := fieldValid_sd_block c i (hvalid _ (by decide))
      have hst := fieldValid_status_block c i (hvalid _ (by decide))
      have hm : truthy c.unit = false := hmiss
      simp [validateSoldier, unitErrors, unitLenErrors, hm, hn1, hn2, hr1, hr2,
        hu1, hu2, hsd, hst, missingMsg]
    | service_date =>
      obtain ⟨hn1, hn2⟩ := fieldValid_id_blocks c i (hvalid _ (by decide))
      obtain ⟨hr1, hr2⟩ := fieldValid_name_blocks c i (hvalid _ (by decide))
      obtain ⟨hu1, hu2⟩ := fieldValid_rank_blocks c i (hvalid _ (by decide))
      obtain ⟨hv1, hv2⟩ := fieldValid_unit_blocks c i (hvalid _ (by decide))
      have hst := fieldValid_status_block c i (hvalid _ (by decide))
      have hm : truthy c.service_date = false := hmiss
      simp [validateSoldier, serviceDateErrors, hm, hn1, hn2, hr1, hr2,
        hu1, hu2, hv1, hv2, hst, missingMsg]
    | status =>
      obtain ⟨hn1, hn2⟩ := fieldValid_id_blocks c i (hvalid _ (by decide))
      obtain ⟨hr1, hr2⟩ := fieldValid_name_blocks c i (hvalid _ (by decide))
      obtain ⟨hu1, hu2⟩ := fieldValid_rank_blocks c i (hvalid _ (by decide))
      obtain ⟨hv1, hv2⟩ := fieldValid_unit_blocks c i (hvalid _ (by decide))
      have hsd := fieldValid_sd_block c i (hvalid _ (by decide))
      have hm : truthy c.status = false := hmiss
      simp [validateSoldier, statusErrors, hm, hn1, hn2, hr1, hr2,
        hu1, hu2, hv1, hv2, hsd, missingMsg]

/-- Witness for `validator_no_short_circuit`: a one-candidate batch whose
candidate is missing exactly its rank. -/
theorem validator_no_short_circuit_witness :
    (validateAgainstXSD xmlBad).errors = validateSoldiers 0 (extractSoldiers xmlBad) ∧
    validateSoldier badCand 1 = [missingMsg FieldName.rank 1] :=
  ⟨(validator_no_short_circuit xmlBad (by decide) (by decide)).1,
   (validator_no_short_circuit xmlBad (by decide) (by decide)).2.2.2 badCand 1
     FieldName.rank (by decide)
     (by
       intro g hg
       cases g with
       | id => decide
       | name => decide
       | rank => exact absurd rfl hg
       | unit => decide
       | service_date => decide
       | status => decide)⟩

/-- C1: when validation rejects the batch (`isValid = false`), neither
endpoint's rejected branch touches the document store — the store after the
run is exactly the store before it, for both the upload and the re-upload
pipelines. -/
theorem rejected_batch_never_persisted (oracle : Nat → Bool) (now : Nat)
    (filename : String) (input : Except String XmlData) (st : ServerState)
    (h : (validateXML input).isValid = false) :
    (uploadXml oracle now filename input st).1.store = st.store ∧
    (reuploadCorrected oracle now filename input st).1.store = st.store := by
  constructor <;> simp [uploadXml, reuploadCorrected, h]

/-- Witness for `rejected_batch_never_persisted`: a parsed document without
the root container, validated against a one-record store. -/
theorem rejected_batch_never_persisted_witness :
    (uploadXml (fun _ => false) 7 "f.xml" (Except.ok ⟨none⟩)
        ⟨[freshSoldier 0 okCand], []⟩).1.store = [freshSoldier 0 okCand] ∧
    (reuploadCorrected (fun _ => false) 7 "f.xml" (Except.ok ⟨none⟩)
        ⟨[freshSoldier 0 okCand], []⟩).1.store = [freshSoldier 0 okCand] :=
  rejected_batch_never_persisted (fun _ => false) 7 "f.xml" (Except.ok ⟨none⟩)
    ⟨[freshSoldier 0 okCand], []⟩ (by decide)

/-- C5 counterexample: a rejected re-upload run creates no Processing Log
Entry at all — starting from an empty log collection, the rejected branch
of the re-upload pipeline leaves the log collection empty, so it is not the
case that every pipeline run creates exactly one entry. -/
theorem rejected_reupload_creates_no_log_cex :
    (validateXML (Except.ok (⟨none⟩ : XmlData))).isValid = false ∧
    (reuploadCorrected (fun _ => false) 7 "f.xlsx" (Except.ok ⟨none⟩)
        ⟨[], []⟩).1.logs = [] := by
  constructor <;> decide

/-- C5 (amended): every upload attempt creates exactly one Processing Log
Entry, and a rejected upload's entry records status `invalid`, zero
accepted records and the full violation list; a re-upload attempt creates
exactly one entry when accepted and none when rejected. -/
theorem processing_log_per_attempt (oracle : Nat → Bool) (now : Nat)
    (filename : String) (input : Except String XmlData) (st : ServerState)
    (h : (validateXML input).isValid = false) :
    (uploadXml oracle now filename input st).1.logs =
      st.logs ++ [⟨filename, "invalid", 0, (validateXML input).soldiers.length,
                   (validateXML input).errors⟩] ∧
    (∀ (input2 : Except String XmlData) (st2 : ServerState),
      (uploadXml oracle now filename input2 st2).1.logs.length = st2.logs.length + 1) ∧
    (∀ (input2 : Except String XmlData) (st2 : ServerState),
      (reuploadCorrected oracle now filename input2 st2).1.logs.length =
        st2.logs.length + (if (validateXML input2).isValid then 1 else 0)) := by
  refine ⟨by simp [uploadXml, h], ?_, ?_⟩
  · intro input2 st2
    by_cases h2 : (validateXML input2).isValid <;> simp [uploadXml, h2]
  · intro input2 st2
    by_cases h2 : (validateXML input2).isValid <;> simp [reuploadCorrected, h2]

/-- Witness for `processing_log_per_attempt` on a concrete rejected input. -/
theorem processing_log_per_attempt_witness :
    (uploadXml (fun _ => false) 7 "f.xml" (Except.ok ⟨none⟩) ⟨[], []⟩).1.logs =
      [] ++ [⟨"f.xml", "invalid", 0,
              (validateXML (Except.ok (⟨none⟩ : XmlData))).soldiers.length,
              (validateXML (Except.ok (⟨none⟩ : XmlData))).errors⟩] :=
  (processing_log_per_attempt (fun _ => false) 7 "f.xml" (Except.ok ⟨none⟩)
    ⟨[], []⟩ (by decide)).1

theorem filterMap_if {α β : Type} (p : α → Bool) (g : α → β) (l : List α) :
    l.filterMap (fun a => if p a then some (g a) else none) = (l.filter p).map g := by
  induction l with
  | nil => rfl
  | cons a l ih =>
    by_cases h : p a <;> simp [List.filterMap_cons, List.filter_cons, h, ih]

/-- C4 counterexample: a spreadsheet row carrying an identifier (`"A1"`)
but no name does not lack both basic fields, yet the parser drops it —
refuting "dropped exactly when it lacks both the identifier and the name". -/
theorem excel_row_with_id_only_dropped_cex :
    getCellStr [JsPrim.str "A1"] 1 = "A1" ∧
    parseExcelToXML [headerRow, [JsPrim.str "A1"]] = [] := by
  constructor <;> decide

/-- C4 (amended): each data row maps positionally to the six record fields
with empty or missing cells normalised to the empty string, and a row is
kept exactly when both its identifier cell and its name cell are non-empty
— it is dropped (with no violation raised) when either one is empty. -/
theorem excel_rows_positional_and_keep (hdr : List JsPrim)
    (rows : List (List JsPrim)) (row : List JsPrim) :
    rowToRecord row =
      ⟨some (JsPrim.str (getCellStr row 1)), some (JsPrim.str (getCellStr row 2)),
       some (JsPrim.str (getCellStr row 3)), some (JsPrim.str (getCellStr row 4)),
       some (JsPrim.str (getCellStr row 5)), some (JsPrim.str (getCellStr row 6))⟩ ∧
    parseExcelToXML (hdr :: rows) =
      (rows.filter (fun q =>
        decide (getCellStr q 1 ≠ "") && decide (getCellStr q 2 ≠ ""))).map rowToRecord := by
  constructor
  · rfl
  · have h0 : parseExcelToXML (hdr :: rows) =
        rows.filterMap (fun q =>
          if (decide (getCellStr q 1 ≠ "") && decide (getCellStr q 2 ≠ "")) = true
          then some (rowToRecord q) else none) := rfl
    rw [h0]
    exact filterMap_if _ _ rows

theorem upsertList_found (now : Nat) (c : Candidate) (post : List StoredSoldier)
    (s : StoredSoldier) (hs : s.id = c.id) :
    ∀ (pre : List StoredSoldier), (∀ x ∈ pre, x.id ≠ c.id) →
      upsertList now c (pre ++ s :: post) =
        (pre ++ assignCandidate s c now :: post, assignCandidate s c now) := by
  intro pre
  induction pre with
  | nil => intro _; simp [upsertList, hs]
  | cons a as ih =>
    intro hpre
    have ha : a.id ≠ c.id := hpre a (List.mem_cons_self a as)
    have := ih (fun x hx => hpre x (List.mem_cons_of_mem a hx))
    simp [upsertList, ha, this]

theorem upsertList_missing (now : Nat) (c : Candidate) :
    ∀ (store : List StoredSoldier), (∀ x ∈ store, x.id ≠ c.id) →
      upsertList now c store = (store ++ [freshSoldier now c], freshSoldier now c) := by
  intro store
  induction store with
  | nil => intro _; simp [upsertList]
  | cons a as ih =>
    intro hst
    have ha : a.id ≠ c.id := hst a (List.mem_cons_self a as)
    have := ih (fun x hx => hst x (List.mem_cons_of_mem a hx))
    simp [upsertList, ha, this]

/-- C6: persistence of an accepted candidate is an upsert keyed by the
identifier: when a stored record with the candidate's identifier exists
(first match), it is updated in place — its six fields overwritten by the
candidate's, `created_at` preserved, `updated_at` refreshed to `now`, and
the store's record count unchanged; when no identifier matches, a fresh
record is appended instead.  The last conjunct ties the single-candidate
step of `saveToMongoDB` to this upsert. -/
theorem persistence_is_upsert_by_id (now : Nat) (c : Candidate)
    (pre post : List StoredSoldier) (s : StoredSoldier)
    (hs : s.id = c.id) (hpre : ∀ x ∈ pre, x.id ≠ c.id) :
    (upsertList now c (pre ++ s :: post)).1 = pre ++ assignCandidate s c now :: post ∧
    (upsertList now c (pre ++ s :: post)).1.length = (pre ++ s :: post).length ∧
    (upsertList now c (pre ++ s :: post)).2 = assignCandidate s c now ∧
    (assignCandidate s c now).created_at = s.created_at ∧
    (assignCandidate s c now).updated_at = now ∧
    (∀ (v1 v2 v3 v4 v5 v6 : JsPrim),
      c = ⟨some v1, some v2, some v3, some v4, some v5, some v6⟩ →
      assignCandidate s c now =
        ⟨some v1, some v2, some v3, some v4, some v5, some v6, s.created_at, now⟩) ∧
    (∀ (store : List StoredSoldier), (∀ x ∈ store, x.id ≠ c.id) →
      (upsertList now c store).1 = store ++ [freshSoldier now c]) ∧
    (∀ (oracle : Nat → Bool) (k : Nat) (store : List StoredSoldier),
      oracle k = false →
      (saveToMongoDB oracle now k store [c]).store = (upsertList now c store).1) := by
  have hfound := upsertList_found now c post s hs pre hpre
  refine ⟨by rw [hfound], by rw [hfound]; simp, by rw [hfound], rfl, rfl, ?_, ?_, ?_⟩
  · intro v1 v2 v3 v4 v5 v6 hc
    subst hc
    rfl
  · intro store hst
    rw [upsertList_missing now c store hst]
  · intro oracle k store hk
    simp [saveToMongoDB, hk]

/-- Witness for `persistence_is_upsert_by_id`: updating the single stored
copy of `okCand` refreshes it in place without growing the store. -/
theorem persistence_is_upsert_by_id_witness :
    (upsertList 5 okCand [freshSoldier 0 okCand]).1 =
      [assignCandidate (freshSoldier 0 okCand) okCand 5] ∧
    (upsertList 5 okCand [freshSoldier 0 okCand]).1.length = 1 :=
  ⟨(persistence_is_upsert_by_id 5 okCand [] [] (freshSoldier 0 okCand) rfl
      (by intro x hx; simp at hx)).1,
   (persistence_is_upsert_by_id 5 okCand [] [] (freshSoldier 0 okCand) rfl
      (by intro x hx; simp at hx)).2.1⟩

theorem saveToMongoDB_length (oracle : Nat → Bool) (now : Nat) :
    ∀ (cs : List Candidate) (k : Nat) (store : List StoredSoldier),
      (saveToMongoDB oracle now k store cs).saved.length +
        (saveToMongoDB oracle now k store cs).errlog.length = cs.length := by
  intro cs
  induction cs with
  | nil => intro k store; simp [saveToMongoDB]
  | cons c cs ih =>
    intro k store
    by_cases h : oracle k
    · have h1 := ih (k+1) store
      simp only [saveToMongoDB, h, if_pos, List.length_cons]
      omega
    · have h1 := ih (k+1) (upsertList now c store).1
      simp only [saveToMongoDB, h, Bool.false_eq_true, if_neg, not_false_iff,
        List.length_cons]
      omega

theorem saveToMongoDB_mem_errlog (oracle : Nat → Bool) (now : Nat) :
    ∀ (cs : List Candidate) (k : Nat) (store : List StoredSoldier)
      (j : Nat) (hj : j < cs.length), oracle (k + j) = true →
      saveErrMsg (cs.get ⟨j, hj⟩) ∈ (saveToMongoDB oracle now k store cs).errlog := by
  intro cs
  induction cs with
  | nil => intro k store j hj; simp at hj
  | cons c cs ih =>
    intro k store j hj ho
    cases j with
    | zero =>
      have hk : oracle k = true := by simpa using ho
      simp [saveToMongoDB, hk]
    | succ j' =>
      have hj' : j' < cs.length := by simpa [Nat.succ_lt_succ_iff] using hj
      have ho' : oracle ((k+1) + j') = true := by
        rw [show (k+1) + j' = k + (j'+1) by omega]
        exact ho
      by_cases hk : oracle k
      · simp only [saveToMongoDB, hk, if_pos]
        exact List.mem_cons_of_mem _ (ih (k+1) store j' hj' ho')
      · simp only [saveToMongoDB, hk, Bool.false_eq_true, if_neg, not_false_iff]
        exact ih (k+1) _ j' hj' ho'

/-- C7: within one `saveToMongoDB` run over an accepted batch, every
candidate is attempted and yields exactly one outcome (a saved record or a
per-record error-log line, so the two counts always sum to the batch
size); a candidate whose save throws lands in the per-record error log
under its identifier; and a failure at the head of the batch leaves the
processing of the remaining candidates exactly as if they were run alone —
the loop is never aborted. -/
theorem store_failures_are_per_record (oracle : Nat → Bool) (now : Nat)
    (k : Nat) (store : List StoredSoldier) (cs : List Candidate) :
    ((saveToMongoDB oracle now k store cs).saved.length +
      (saveToMongoDB oracle now k store cs).errlog.length = cs.length) ∧
    (∀ (j : Nat) (hj : j < cs.length), oracle (k + j) = true →
      saveErrMsg (cs.get ⟨j, hj⟩) ∈ (saveToMongoDB oracle now k store cs).errlog) ∧
    (∀ (c : Candidate) (cs' : List Candidate), oracle k = true →
      saveToMongoDB oracle now k store (c :: cs') =
        ⟨(saveToMongoDB oracle now (k+1) store cs').store,
         (saveToMongoDB oracle now (k+1) store cs').saved,
         saveErrMsg c :: (saveToMongoDB oracle now (k+1) store cs').errlog⟩) := by
  refine ⟨saveToMongoDB_length oracle now cs k store,
    fun j hj ho => saveToMongoDB_mem_errlog oracle now cs k store j hj ho, ?_⟩
  intro c cs' hk
  simp [saveToMongoDB, hk]

/-- Witness for `store_failures_are_per_record`: the first of two
candidates fails to save, appears in the error log, and the second is
still processed. -/
theorem store_failures_are_per_record_witness :
    ((saveToMongoDB (fun k => k == 0) 3 0 [] [okCand, badCand]).saved.length +
      (saveToMongoDB (fun k => k == 0) 3 0 [] [okCand, badCand]).errlog.length = 2) ∧
    saveErrMsg okCand ∈ (saveToMongoDB (fun k => k == 0) 3 0 [] [okCand, badCand]).errlog :=
  ⟨(store_failures_are_per_record (fun k => k == 0) 3 0 [] [okCand, badCand]).1,
   (store_failures_are_per_record (fun k => k == 0) 3 0 [] [okCand, badCand]).2.1
     0 (by decide) (by decide)⟩

theorem excelDataRows_length (errs : List String) :
    ∀ (cs : List Candidate) (i : Nat), (excelDataRows errs i cs).length = cs.length := by
  intro cs
  induction cs with
  | nil => intro i; rfl
  | cons c cs ih => intro i; simp [excelDataRows, ih]

theorem excelDataRows_get (errs : List String) :
    ∀ (cs : List Candidate) (i k : Nat) (hk : k < cs.length),
      (excelDataRows errs i cs).get? k =
        some (excelDataRow errs (i + k) (cs.get ⟨k, hk⟩)) := by
  intro cs
  induction cs with
  | nil => intro i k hk; simp at hk
  | cons c cs ih =>
    intro i k hk
    cases k with
    | zero => simp [excelDataRows]
    | succ k' =>
      have hk' : k' < cs.length := by simpa [Nat.succ_lt_succ_iff] using hk
      have h1 : (excelDataRows errs i (c :: cs)).get? (k'+1) =
          (excelDataRows errs (i+1) cs).get? k' := rfl
      rw [h1, ih (i+1) k' hk', show i + 1 + k' = i + (k' + 1) from by omega]
      rfl

theorem summaryRows_length (errs : List String) :
    (summaryRows errs).length = if errs = [] then 0 else errs.length + 2 := by
  by_cases h : errs = [] <;> simp [summaryRows, h]

theorem string_data_eq_nil : ∀ {s : String}, s.data = [] → s = ""
  | ⟨[]⟩, _ => rfl
  | ⟨a :: l⟩, h => by simp at h

theorem listPrefixB_nil_right : ∀ (l : List Char), listPrefixB l [] = true → l = []
  | [], _ => rfl
  | a :: as, h => by simp [listPrefixB] at h

theorem strIncludes_ne_empty (e pat : String) (h : strIncludes e pat = true)
    (hp : pat.data ≠ []) : e ≠ "" := by
  intro he
  apply hp
  subst he
  have h' : listPrefixB pat.data [] = true := h
  exact listPrefixB_nil_right _ h'

theorem soldierRowErrors_mem_ne (errs : List String) (k : Nat) (e : String)
    (he : e ∈ soldierRowErrors errs k) : e ≠ "" := by
  have hp := (List.mem_filter.1 he).2
  simp only [Bool.or_eq_true, Bool.and_eq_true] at hp
  rcases hp with (h | h) | h
  · refine strIncludes_ne_empty e _ h ?_
    rw [data_append]
    simp
  · refine strIncludes_ne_empty e _ h.1 (by decide)
  · refine strIncludes_ne_empty e _ h.1 (by decide)

theorem joinSep_ne_empty (sep : String) :
    ∀ (l : List String), l ≠ [] → (∀ e ∈ l, e ≠ "") → joinSep sep l ≠ "" := by
  intro l
  match l with
  | [] => intro h _; exact absurd rfl h
  | [a] =>
    intro _ he
    simpa [joinSep] using he a (List.mem_singleton.2 rfl)
  | a :: b :: rest =>
    intro _ he
    have ha : a ≠ "" := he a (List.mem_cons_self a _)
    intro hcontra
    apply ha
    have hd := congrArg String.data hcontra
    have hj : joinSep sep (a :: b :: rest) = a ++ sep ++ joinSep sep (b :: rest) := rfl
    have hnil : ("" : String).data = [] := rfl
    rw [hj, data_append, data_append, hnil] at hd
    exact string_data_eq_nil (List.append_eq_nil.1 (List.append_eq_nil.1 hd).1).1

theorem rowRemarks_ne_empty (errs : List String) (k : Nat) :
    rowRemarks errs k ≠ "" := by
  unfold rowRemarks
  by_cases h : soldierRowErrors errs k = []
  · simp [h]
  · simp only [h, if_neg, not_false_iff]
    exact joinSep_ne_empty "; " _ h (fun e he => soldierRowErrors_mem_ne errs k e he)

/-- An eleven-candidate batch: ten fully valid records followed by one
missing its rank. -/
def batch11 : List Candidate := List.replicate 10 okCand ++ [badCand]

/-- C3 counterexample: the remarks filter matches by substring, so in an
eleven-row batch whose only violation is tagged `Soldier 11`, row 1 — whose
candidate has no violations at all — receives the Soldier-11 message in its
seventh cell (`"Soldier 1"` is a substring of `"Soldier 11"`), i.e. the
cell does not contain exactly the violations tagged with ordinal 1. -/
theorem remarks_substring_leak_cex :
    (validateAgainstXSD ⟨some ⟨SoldierNode.array batch11⟩⟩).errors =
      ["XSD VIOLATION: Soldier 11 - Missing required field: Rank"] ∧
    validateSoldier okCand 1 = [] ∧
    (createInvalidExcel batch11
        ["XSD VIOLATION: Soldier 11 - Missing required field: Rank"]).get? 0 =
      some [JsPrim.str "S1", JsPrim.str "Alice", JsPrim.str "Private",
            JsPrim.str "Alpha", JsPrim.str "2021-01-01", JsPrim.str "Active",
            JsPrim.str "XSD VIOLATION: Soldier 11 - Missing required field: Rank"] := by
  refine ⟨by decide, by decide, by decide⟩

theorem createInvalidExcel_get_data (records : List Candidate)
    (errs : List String) (k : Nat) (hk : k < records.length) :
    (createInvalidExcel records errs).get? k =
      some (excelDataRow errs k (records.get ⟨k, hk⟩)) := by
  have hlen : k < (excelDataRows errs 0 records).length := by
    rw [excelDataRows_length]; exact hk
  have h0 : (createInvalidExcel records errs).get? k =
      (excelDataRows errs 0 records).get? k := List.get?_append hlen
  rw [h0, excelDataRows_get errs records 0 k hk, Nat.zero_add]

/-- C3 (amended): for a rejected batch with N extracted candidates the
annotated sheet has exactly N data rows, one per candidate in order,
followed by the trailing summary block listing every violation verbatim;
but the seventh "Schema Violations" cell of row k holds the violations
whose text contains the substring `"Soldier k"` (together with batch-level
violations attributed to row 1) joined by `"; "` — so ordinals extending k
as a decimal prefix (11, 12, … for row 1) leak into the cell — with the
fixed fallback text when nothing matches. -/
theorem annotated_sheet_layout (records : List Candidate) (errs : List String)
    (k : Nat) (hk : k < records.length) :
    (createInvalidExcel records errs).length =
      records.length + (if errs = [] then 0 else errs.length + 2) ∧
    (createInvalidExcel records errs).get? k =
      some (excelDataRow errs k (records.get ⟨k, hk⟩)) ∧
    (excelDataRow errs k (records.get ⟨k, hk⟩)).get? 6 =
      some (JsPrim.str (if soldierRowErrors errs k = [] then "General validation error"
        else joinSep "; " (soldierRowErrors errs k))) ∧
    (∀ (j : Nat) (hj : j < errs.length),
      (createInvalidExcel records errs).get? (records.length + 2 + j) =
        some [JsPrim.str "", JsPrim.str "", JsPrim.str "", JsPrim.str "",
              JsPrim.str "", JsPrim.str "", JsPrim.str (errs.get ⟨j, hj⟩)]) := by
  refine ⟨?_, createInvalidExcel_get_data records errs k hk, rfl, ?_⟩
  · simp [createInvalidExcel, excelDataRows_length, summaryRows_length]
  · intro j hj
    have hne : errs ≠ [] := by
      intro h
      rw [h] at hj
      simp at hj
    have hlen : (excelDataRows errs 0 records).length ≤ records.length + 2 + j := by
      rw [excelDataRows_length]; omega
    have h0 : (createInvalidExcel records errs).get? (records.length + 2 + j) =
        (summaryRows errs).get?
          (records.length + 2 + j - (excelDataRows errs 0 records).length) :=
      List.get?_append_right hlen
    rw [h0, show records.length + 2 + j - (excelDataRows errs 0 records).length
        = j + 2 from by rw [excelDataRows_length]; omega]
    simp only [summaryRows, if_neg hne, List.get?_cons_succ, List.get?_map]
    rw [List.get?_eq_get hj]
    rfl

/-- Witness for `annotated_sheet_layout` at a one-record rejected batch. -/
theorem annotated_sheet_layout_witness :
    (createInvalidExcel [badCand]
        ["XSD VIOLATION: Soldier 1 - Missing required field: Rank"]).length =
      1 + (if (["XSD VIOLATION: Soldier 1 - Missing required field: Rank"] :
            List String) = [] then 0 else 1 + 2) ∧
    (createInvalidExcel [badCand]
        ["XSD VIOLATION: Soldier 1 - Missing required field: Rank"]).get? (1 + 2 + 0) =
      some [JsPrim.str "", JsPrim.str "", JsPrim.str "", JsPrim.str "",
            JsPrim.str "", JsPrim.str "",
            JsPrim.str "XSD VIOLATION: Soldier 1 - Missing required field: Rank"] :=
  ⟨(annotated_sheet_layout [badCand]
      ["XSD VIOLATION: Soldier 1 - Missing required field: Rank"] 0 (by decide)).1,
   (annotated_sheet_layout [badCand]
      ["XSD VIOLATION: Soldier 1 - Missing required field: Rank"] 0 (by decide)).2.2.2
      0 (by decide)⟩

/-- C10: the "Schema Violations" cell of every data row of the annotated
sheet is non-empty — the joined matching violations when the row's filter
finds any, and exactly the fixed fallback text `General validation error`
when it finds none — so no data row ever carries an empty remarks cell. -/
theorem violations_cell_never_empty (records : List Candidate)
    (errs : List String) (k : Nat) (hk : k < records.length) :
    (createInvalidExcel records errs).get? k =
      some (excelDataRow errs k (records.get ⟨k, hk⟩)) ∧
    (excelDataRow errs k (records.get ⟨k, hk⟩)).get? 6 =
      some (JsPrim.str (rowRemarks errs k)) ∧
    rowRemarks errs k ≠ "" ∧
    (soldierRowErrors errs k = [] → rowRemarks errs k = "General validation error") := by
  refine ⟨createInvalidExcel_get_data records errs k hk, rfl,
    rowRemarks_ne_empty errs k, ?_⟩
  intro h
  simp [rowRemarks, h]

/-- Witness for `violations_cell_never_empty`: a valid record's row in a
batch rejected because of a different record gets the fallback text. -/
theorem violations_cell_never_empty_witness :
    rowRemarks ["XSD VIOLATION: Soldier 2 - Missing required field: Rank"] 0 ≠ "" ∧
    (soldierRowErrors ["XSD VIOLATION: Soldier 2 - Missing required field: Rank"] 0 = [] →
      rowRemarks ["XSD VIOLATION: Soldier 2 - Missing required field: Rank"] 0 =
        "General validation error") :=
  ⟨(violations_cell_never_empty [okCand, badCand]
      ["XSD VIOLATION: Soldier 2 - Missing required field: Rank"] 0 (by decide)).2.2.1,
   (violations_cell_never_empty [okCand, badCand]
      ["XSD VIOLATION: Soldier 2 - Missing required field: Rank"] 0 (by decide)).2.2.2⟩

theorem isStringV_shape (v : Option JsPrim) (h : isStringV v = true) :
    ∃ s, v = some (JsPrim.str s) := by
  cases v with
  | none => simp [isStringV] at h
  | some p =>
    cases p with
    | str s => exact ⟨s, rfl⟩
    | num n => simp [isStringV] at h
    | bool b => simp [isStringV] at h

theorem truthy_str_ne (s : String) (h : truthy (some (JsPrim.str s)) = true) :
    s ≠ "" := by
  simpa [truthy, primTruthy] using h

/-- A candidate all of whose checks pass consists of six non-empty string
fields. -/
theorem soldierValid_shape (c : Candidate) (i : Nat)
    (h : validateSoldier c i = []) :
    ∃ s1 s2 s3 s4 s5 s6 : String,
      c = ⟨some (JsPrim.str s1), some (JsPrim.str s2), some (JsPrim.str s3),
           some (JsPrim.str s4), some (JsPrim.str s5), some (JsPrim.str s6)⟩ ∧
      s1 ≠ "" ∧ s2 ≠ "" ∧ s3 ≠ "" ∧ s4 ≠ "" ∧ s5 ≠ "" ∧ s6 ≠ "" := by
  rw [validateSoldier_nil] at h
  obtain ⟨h1, h2, h3, h4, h5, h6, -⟩ := h
  obtain ⟨ht1, hs1⟩ := (idErrors_nil c i).1 h1
  obtain ⟨ht2, hs2⟩ := (nameErrors_nil c i).1 h2
  obtain ⟨ht3, hs3⟩ := (rankErrors_nil c i).1 h3
  obtain ⟨ht4, hs4⟩ := (unitErrors_nil c i).1 h4
  obtain ⟨ht5, hr5, -⟩ := (serviceDateErrors_nil c i).1 h5
  obtain ⟨ht6, he6⟩ := (statusErrors_nil c i).1 h6
  obtain ⟨s1, e1⟩ := isStringV_shape c.id hs1
  obtain ⟨s2, e2⟩ := isStringV_shape c.name hs2
  obtain ⟨s3, e3⟩ := isStringV_shape c.rank hs3
  obtain ⟨s4, e4⟩ := isStringV_shape c.unit hs4
  obtain ⟨s5, e5, n5⟩ := serviceDate_str_of_pass c.service_date ht5 hr5
  obtain ⟨s6, e6, n6⟩ := status_str_of_enumOk c.status he6
  refine ⟨s1, s2, s3, s4, s5, s6, ?_, ?_, ?_, ?_, ?_, n5, n6⟩
  · cases c
    simp only at e1 e2 e3 e4 e5 e6
    rw [e1, e2, e3, e4, e5, e6]
  · exact truthy_str_ne s1 (e1 ▸ ht1)
  · exact truthy_str_ne s2 (e2 ▸ ht2)
  · exact truthy_str_ne s3 (e3 ▸ ht3)
  · exact truthy_str_ne s4 (e4 ▸ ht4)

theorem parse_row_of_valid (errs : List String) (k i : Nat) (c : Candidate)
    (h : validateSoldier c i = []) :
    rowToRecord (excelDataRow errs k c) = c ∧
    truthy (rowToRecord (excelDataRow errs k c)).id = true ∧
    truthy (rowToRecord (excelDataRow errs k c)).name = true := by
  obtain ⟨s1, s2, s3, s4, s5, s6, hc, h1, h2, h3, h4, h5, h6⟩ :=
    soldierValid_shape c i h
  subst hc
  refine ⟨?_, ?_, ?_⟩ <;>
    simp [excelDataRow, cellOf, primTruthy, h1, h2, h3, h4, h5, h6,
      rowToRecord, getCellStr, primToString, truthy]

theorem parse_rows_of_valid (errs : List String) :
    ∀ (cs : List Candidate) (i k : Nat), validateSoldiers i cs = [] →
      List.filterMap (fun row =>
        let r := rowToRecord row
        if truthy r.id && truthy r.name then some r else none)
        (excelDataRows errs k cs) = cs := by
  intro cs
  induction cs with
  | nil => intro i k _; rfl
  | cons c cs ih =>
    intro i k h
    have h0 : validateSoldier c (i+1) = [] ∧ validateSoldiers (i+1) cs = [] := by
      have he : validateSoldiers i (c :: cs) =
          validateSoldier c (i+1) ++ validateSoldiers (i+1) cs := rfl
      rw [he] at h
      exact List.append_eq_nil.1 h
    obtain ⟨hr, ht1, ht2⟩ := parse_row_of_valid errs k (i+1) c h0.1
    have hf : (fun row =>
        let r := rowToRecord row
        if truthy r.id && truthy r.name then some r else none)
        (excelDataRow errs k c) = some c := by
      show (if truthy (rowToRecord (excelDataRow errs k c)).id &&
          truthy (rowToRecord (excelDataRow errs k c)).name
        then some (rowToRecord (excelDataRow errs k c)) else none) = some c
      rw [ht1, ht2, hr]
      rfl
    simp only [excelDataRows, List.filterMap_cons, hf]
    rw [ih (i+1) (k+1) h0.2]

/-- The record-level rendering and parsing steps are mutually inverse on a
cleanly-validating batch: rendering the candidates to sheet rows and
scanning the rows back recovers the records field-for-field, in order.
(The loss exhibited by `reupload_double_root_loses_records` below happens
in the XML serialisation of line 539, not in the row conversion.) -/
theorem tree_tabular_tree_roundtrip (x : XmlData)
    (h : (validateAgainstXSD x).isValid = true) :
    parseExcelToXML (headerRow ::
        createInvalidExcel (validateAgainstXSD x).soldiers (validateAgainstXSD x).errors)
      = (validateAgainstXSD x).soldiers := by
  cases hx : x.army_records with
  | none => simp [validateAgainstXSD, hx] at h
  | some ar =>
    cases hcs : extractSoldiers x with
    | nil => simp [validateAgainstXSD, hx, hcs] at h
    | cons a as =>
      have hv : validateAgainstXSD x =
          ⟨(validateSoldiers 0 (a :: as)).isEmpty, validateSoldiers 0 (a :: as),
           a :: as⟩ := by
        simp [validateAgainstXSD, hx, hcs]
      have herrs : validateSoldiers 0 (a :: as) = [] := by
        cases hl : validateSoldiers 0 (a :: as) with
        | nil => rfl
        | cons e es =>
          rw [hv] at h
          simp only at h
          rw [hl] at h
          simp at h
      have hsold : (validateAgainstXSD x).soldiers = a :: as := by rw [hv]
      have herr2 : (validateAgainstXSD x).errors = [] := by rw [hv]; exact herrs
      rw [hsold, herr2]
      have hrows : createInvalidExcel (a :: as) [] = excelDataRows [] 0 (a :: as) := by
        simp [createInvalidExcel, summaryRows]
      rw [hrows]
      have h0 : parseExcelToXML (headerRow :: excelDataRows [] 0 (a :: as)) =
          List.filterMap (fun row =>
            let r := rowToRecord row
            if truthy r.id && truthy r.name then some r else none)
            (excelDataRows [] 0 (a :: as)) := rfl
      rw [h0]
      exact parse_rows_of_valid [] (a :: as) 0 0 herrs

/-- A parsed JavaScript document value as the XML libraries see it: a
primitive leaf, an object (ordered key–value fields), or an array. -/
inductive JsDoc where
  | prim (p : JsPrim)
  | obj (fields : List (String × JsDoc))
  | arr (elems : List JsDoc)

/-- An XML element tree (attributes play no role in this pipeline). -/
inductive Xml where
  | elem (tag : String) (children : List Xml)
  | text (s : String)

/-- One record key serialised as a child element when the key is present
(an absent key emits nothing). -/
def fieldDoc (k : String) : Option JsPrim → List (String × JsDoc)
  | none => []
  | some p => [(k, JsDoc.prim p)]

/-- The JS object a candidate record is (the keys of lines 517–524, in
construction order, present keys only). -/
def candidateToDoc (c : Candidate) : JsDoc :=
  JsDoc.obj (fieldDoc "id" c.id ++ fieldDoc "name" c.name ++
    fieldDoc "rank" c.rank ++ fieldDoc "unit" c.unit ++
    fieldDoc "service_date" c.service_date ++ fieldDoc "status" c.status)

/-- The `xmlData` object built at lines 533–537:
`{ army_records: { soldier: records } }`. -/
def excelXmlData (records : List Candidate) : JsDoc :=
  JsDoc.obj [("army_records",
    JsDoc.obj [("soldier", JsDoc.arr (records.map candidateToDoc))])]

mutual

/-- Models `js2xmlparser.parse(root, data)` (line 539): the library always
creates a NEW root element named `root` wrapping `data` — an object emits
one child element per key, an array-valued key emits one element per item
under that key's name, a primitive becomes element text.  (A top-level
array, which the source never passes, is rendered as repeated root-named
children.) -/
def js2xmlSer (root : String) : JsDoc → Xml
  | JsDoc.prim p => Xml.elem root [Xml.text (primToString p)]
  | JsDoc.obj fields => Xml.elem root (js2xmlSerFields fields)
  | JsDoc.arr elems => Xml.elem root (js2xmlSerList root elems)

/-- Serialisation of an array value: one element per item, all named alike. -/
def js2xmlSerList (root : String) : List JsDoc → List Xml
  | [] => []
  | e :: es => js2xmlSer root e :: js2xmlSerList root es

/-- Serialisation of an object's fields, in order. -/
def js2xmlSerFields : List (String × JsDoc) → List Xml
  | [] => []
  | (k, JsDoc.arr elems) :: rest => js2xmlSerList k elems ++ js2xmlSerFields rest
  | (k, v) :: rest => js2xmlSer k v :: js2xmlSerFields rest

end

/-- Decimal value of a digit run (none on any non-digit character). -/
def digitsValAux : Nat → List Char → Option Nat
  | acc, [] => some acc
  | acc, c :: cs =>
    if c.isDigit then digitsValAux (acc * 10 + digitVal c) cs else none

/-- Models fast-xml-parser's default tag-value coercion for the values this
pipeline produces: `"true"`/`"false"` parse to booleans and integer-shaped
strings (optionally `-`-signed, leading zeros absorbed) parse to numbers;
everything else stays a string.  (Fractional, hex and exponent numeric
forms never arise from the serialised record fields and are kept as
strings.) -/
def fxpCoerce (s : String) : JsPrim :=
  if s = "true" then JsPrim.bool true
  else if s = "false" then JsPrim.bool false
  else
    match s.data with
    | [] => JsPrim.str ""
    | '-' :: c :: cs =>
      match digitsValAux 0 (c :: cs) with
      | some n => JsPrim.num (-(n : Int))
      | none => JsPrim.str s
    | c :: cs =>
      match digitsValAux 0 (c :: cs) with
      | some n => JsPrim.num (n : Int)
      | none => JsPrim.str s

/-- Tag under which a child is keyed by the parser (bare text nodes go
under `#text`; unused by this pipeline's well-formed trees). -/
def fxpTag : Xml → String
  | Xml.elem t _ => t
  | Xml.text _ => "#text"

/-- Insertion of one parsed child into the accumulated fields, mirroring
fast-xml-parser's grouping: a repeated tag collapses its occurrences into
an array in first-appearance order. -/
def fxpAdd : List (String × JsDoc) → String → JsDoc → List (String × JsDoc)
  | [], k, v => [(k, v)]
  | (k', JsDoc.arr xs) :: rest, k, v =>
    if k' = k then (k', JsDoc.arr (xs ++ [v])) :: rest
    else (k', JsDoc.arr xs) :: fxpAdd rest k v
  | (k', old) :: rest, k, v =>
    if k' = k then (k', JsDoc.arr [old, v]) :: rest
    else (k', old) :: fxpAdd rest k v

mutual

/-- Models fast-xml-parser's value for one element: an empty element is the
empty string, a text-only element is its coerced text, and an element with
children is the object of its grouped children. -/
def fxpBody : Xml → JsDoc
  | Xml.text s => JsDoc.prim (fxpCoerce s)
  | Xml.elem _ children =>
    match children with
    | [] => JsPrim.str "" |> JsDoc.prim
    | [Xml.text s] => JsDoc.prim (fxpCoerce s)
    | cs => JsDoc.obj (fxpGroup cs [])

/-- Left fold grouping the children under their tags. -/
def fxpGroup : List Xml → List (String × JsDoc) → List (String × JsDoc)
  | [], acc => acc
  | c :: cs, acc => fxpGroup cs (fxpAdd acc (fxpTag c) (fxpBody c))

end

/-- Models the full fast-xml-parser result on a document tree: an object
with the root tag as its single key. -/
def fxpParseDoc (x : Xml) : JsDoc := JsDoc.obj [(fxpTag x, fxpBody x)]

/-- First binding of a key among an object's fields (JS property lookup). -/
def docLookup : List (String × JsDoc) → String → Option JsDoc
  | [], _ => none
  | (k', v) :: rest, k => if k' = k then some v else docLookup rest k

/-- JavaScript truthiness of a document value: objects and arrays are
always truthy, primitives by `primTruthy`. -/
def docTruthy : JsDoc → Bool
  | JsDoc.prim p => primTruthy p
  | JsDoc.obj _ => true
  | JsDoc.arr _ => true

/-- The six field reads the validator performs on one soldier value: on an
object, each key's primitive value (this pipeline's record fields are
always primitives; a non-object soldier value, e.g. element text, has no
such properties at all). -/
def docToCandidate : JsDoc → Candidate
  | JsDoc.obj fs =>
    ⟨match docLookup fs "id" with | some (JsDoc.prim p) => some p | _ => none,
     match docLookup fs "name" with | some (JsDoc.prim p) => some p | _ => none,
     match docLookup fs "rank" with | some (JsDoc.prim p) => some p | _ => none,
     match docLookup fs "unit" with | some (JsDoc.prim p) => some p | _ => none,
     match docLookup fs "service_date" with | some (JsDoc.prim p) => some p | _ => none,
     match docLookup fs "status" with | some (JsDoc.prim p) => some p | _ => none⟩
  | _ => ⟨none, none, none, none, none, none⟩

/-- The `army_records?.soldier` read (line 319–321 shape selection viewed
from a parsed document): a missing key is `absent`, an array keeps its
elements, any other truthy value is a single candidate, a falsy one is
dropped. -/
def soldierNodeOfDoc : Option JsDoc → SoldierNode
  | none => SoldierNode.absent
  | some (JsDoc.arr elems) => SoldierNode.array (elems.map docToCandidate)
  | some v =>
    if docTruthy v then SoldierNode.single (docToCandidate v)
    else SoldierNode.absent

/-- The view of a parsed document that `validateAgainstXSD` reads: the
truthiness of `xmlData.army_records` (its absence or falsiness is the
root violation) and, through optional chaining, the `soldier` key of that
value when it is an object. -/
def docToXmlData : JsDoc → XmlData
  | JsDoc.obj fields =>
    (match docLookup fields "army_records" with
     | none => ⟨none⟩
     | some v =>
       if docTruthy v then
         ⟨some ⟨soldierNodeOfDoc
           (match v with
            | JsDoc.obj fs => docLookup fs "soldier"
            | _ => none)⟩⟩
       else ⟨none⟩)
  | _ => ⟨none⟩

/-- The complete `parseExcelToXML` (lines 508–541) composed with the
re-parse at line 679 of `/api/reupload-corrected`: scan the sheet rows
into records, wrap them into `xmlData`, serialise with
`js2xmlparser.parse('army_records', xmlData)`, and re-parse the emitted
text into the document the validator then reads. -/
def parseExcelToXMLFull (sheet : List (List JsPrim)) : XmlData :=
  docToXmlData (fxpParseDoc (js2xmlSer "army_records"
    (excelXmlData (parseExcelToXML sheet))))

/-- For every batch, the line-539 serialisation double-wraps the root —
`js2xmlparser.parse('army_records', xmlData)` puts a new `army_records`
element around the object that already has an `army_records` key — so the
re-parsed document binds `army_records` to `{ army_records: … }`, an
object with no `soldier` key: the validator's batch view is always
root-present-but-soldierless, whatever the records were. -/
theorem excel_serialization_double_root (records : List Candidate) :
    docToXmlData (fxpParseDoc (js2xmlSer "army_records" (excelXmlData records))) =
      ⟨some ⟨SoldierNode.absent⟩⟩ := rfl

/-- A corrected one-row sheet whose single record is fully valid. -/
def correctedSheet : List (List JsPrim) :=
  [headerRow,
   [JsPrim.str "S1", JsPrim.str "Alice", JsPrim.str "Private",
    JsPrim.str "Alpha", JsPrim.str "2021-01-01", JsPrim.str "Active"]]

/-- C9 (code bug at the failing input): the corrected sheet's single row
scans to a fully valid record, yet the tabular-to-tree conversion the code
actually performs — `js2xmlparser.parse('army_records', xmlData)` over the
already-wrapped `xmlData`, then the re-parse — loses every record for every
batch (double-wrapped root, no reachable `soldier` key), so re-validating
the round-tripped batch yields zero candidates and the rejection
`At least one soldier record is required` instead of the field-for-field
identical records the claim requires. -/
theorem reupload_double_root_loses_records :
    validateSoldiers 0 (parseExcelToXML correctedSheet) = [] ∧
    parseExcelToXML correctedSheet =
      [⟨some (JsPrim.str "S1"), some (JsPrim.str "Alice"),
        some (JsPrim.str "Private"), some (JsPrim.str "Alpha"),
        some (JsPrim.str "2021-01-01"), some (JsPrim.str "Active")⟩] ∧
    (∀ records : List Candidate,
      docToXmlData (fxpParseDoc (js2xmlSer "army_records" (excelXmlData records))) =
        ⟨some ⟨SoldierNode.absent⟩⟩) ∧
    validateAgainstXSD (parseExcelToXMLFull correctedSheet) =
      ⟨false, ["XSD VIOLATION: At least one soldier record is required"], []⟩ :=
  ⟨by decide, by decide,
   fun records => excel_serialization_double_root records,
   by decide⟩
